import Mathlib

/-!
Shallow embedding of `scripts/generateEquipmentAliases.py` (Python 3.9) and
proofs about its catalog-fetch loop, variant-resolution rules and text
serialization.

Conventions of the embedding:
* JSON integers are `Int`; absent values are `Option`.
* A Python dict that is only iterated / unioned is a `List (String × _)` of
  key-value pairs in iteration order.
* The paginated `while True` fetch loop is embedded as a single-iteration
  step function `fetchStep` plus a fuel-indexed runner `getEquipmentData`
  (fuel exhaustion = the Python loop has not terminated within that many
  iterations).
* `re.match(r"^(a|b)$", s)` is embedded by `reFullMatch`: with `$` and no
  `re.MULTILINE`, the regex accepts exactly the literal alternatives and the
  same alternatives with one trailing newline.
* Python's `list.sort(key=lambda d: d.get('name'))` is a stable ascending
  sort by code-point-lexicographic string comparison; it is embedded as the
  stable insertion sort `sortByName` (stability and sortedness are proved
  below, which pin the result to the unique stable by-name sort).
-/

namespace EquipAliases

/-- The `printouts` block of one fetched record: the two per-record
attribute arrays the script reads (`Item ID`, `Version anchor`).  SMW
printouts are always arrays, possibly empty. -/
structure Printouts where
  itemID : List Int
  versionAnchor : List String
deriving DecidableEq, Repr

/-- One fetched record: the raw wiki key (e.g. `"Abyssal whip#Locked"`)
paired with its printouts block, `none` when the record has no
`printouts` key (the script then skips it). -/
abbrev WikiData := List (String × Option Printouts)

/-- The item dictionaries the script builds in `main`:
`{'name': ..., 'id': ..., 'version': ...}`. -/
structure Item where
  name : String
  id : Option Int
  version : String
deriving DecidableEq, Repr

/-- One emitted alias line: `variantId: baseId, // comment`. -/
structure AliasEntry where
  variantId : Option Int
  baseId : Option Int
  comment : String
deriving DecidableEq, Repr

/-- One API response, as the fetch loop inspects it: `results` is
`none` when `'query' not in data or 'results' not in data['query']`,
and `continueOffset` is `none` when `'query-continue-offset' not in data`. -/
structure ApiResponse where
  results : Option WikiData
  continueOffset : Option Int
deriving DecidableEq, Repr

/-- Python dict union `d1 | d2`: keys of `d1` in order (values overridden
by `d2` on collision), then the keys of `d2` not present in `d1`. -/
def dictUnion (d1 d2 : WikiData) : WikiData :=
  (d1.map (fun kv =>
    match d2.find? (fun kv2 => kv2.1 == kv.1) with
    | some kv2 => (kv.1, kv2.2)
    | none => kv))
  ++ d2.filter (fun kv2 => !(d1.any (fun kv => kv.1 == kv2.1)))

/-- Outcome of one iteration of the `while True` loop in
`getEquipmentData`: either the loop `break`s with the accumulated
equipment dict, or it continues at a new offset. -/
inductive FetchOutcome where
  | done (equipment : WikiData)
  | more (offset : Int) (equipment : WikiData)
deriving DecidableEq, Repr

/-- One iteration of the fetch loop body, given the current offset, the
accumulated `equipment` dict, and the response to this iteration's
request.  Mirrors the source exactly: break when `results` is missing;
otherwise union the results in; then break when the continuation offset
is missing or `int(offset') < offset`; otherwise continue at the
continuation offset. -/
def fetchStep (offset : Int) (equipment : WikiData) (resp : ApiResponse) : FetchOutcome :=
  match resp.results with
  | none => FetchOutcome.done equipment
  | some rs =>
    let eq2 := dictUnion equipment rs
    match resp.continueOffset with
    | none => FetchOutcome.done eq2
    | some c => if c < offset then FetchOutcome.done eq2 else FetchOutcome.more c eq2

/-- Fuel-indexed runner for the fetch loop.  `server` gives the response
to the `i`-th request; `none` means the loop did not terminate within
`fuel` iterations.  The real loop starts at `offset = 0`, an empty
equipment dict and request index `0`. -/
def getEquipmentData (fuel : Nat) (offset : Int) (equipment : WikiData)
    (server : Nat → ApiResponse) (i : Nat) : Option WikiData :=
  match fuel with
  | 0 => none
  | Nat.succ f =>
    match fetchStep offset equipment (server i) with
    | FetchOutcome.done e => some e
    | FetchOutcome.more off2 e2 => getEquipmentData f off2 e2 server (i + 1)

/-- `getPrintoutValue`: SMW printouts are arrays; `None` for an empty
array, else the first element. -/
def getPrintoutValue {α : Type} (prop : List α) : Option α :=
  prop.head?

/-- `k.rsplit('#', 1)[0]`: everything before the last `#`, or the whole
string when it contains no `#`.  (Computed on the character list:
reverse, drop through the first `#` of the reversal — i.e. the last `#`
of the string — and reverse back.) -/
def nameFromKey (k : String) : String :=
  if k.data.contains '#' then
    String.mk ((k.data.reverse.dropWhile (fun c => !(c == '#'))).drop 1).reverse
  else k

/-- The record-construction loop of `main`: records without a
`printouts` block are skipped; otherwise an item is built with
`name = k.rsplit('#', 1)[0]`, `id = getPrintoutValue(po['Item ID'])`
(`none` when the array is empty — the record is NOT skipped), and
`version = getPrintoutValue(po['Version anchor']) or ''`. -/
def buildItems (wiki_data : WikiData) : List Item :=
  wiki_data.filterMap (fun kv =>
    match kv.2 with
    | none => none
    | some po =>
      some ⟨nameFromKey kv.1, getPrintoutValue po.itemID,
            (getPrintoutValue po.versionAnchor).getD ("")⟩)

/-- Code-point lexicographic `≤` on character lists — Python's string
comparison used by `list.sort(key=...)`. -/
def charsLe : List Char → List Char → Bool
  | [], _ => true
  | _ :: _, [] => false
  | c :: cs, d :: ds => if c < d then true else if d < c then false else charsLe cs ds

/-- Python string `≤` (code-point lexicographic). -/
def strLe (a b : String) : Bool :=
  charsLe a.data b.data

/-- Stable insertion into a by-name sorted list: `x` is placed before
the first element whose name is `≥ x.name`, hence after every
equal-named element already present. -/
def insertByName (x : Item) : List Item → List Item
  | [] => [x]
  | y :: ys => if strLe x.name y.name then x :: y :: ys else y :: insertByName x ys

/-- `all_items.sort(key=lambda d: d.get('name'))`: stable ascending sort
by `name` (stable insertion sort; stability + sortedness determine the
result uniquely, so this agrees with Python's Timsort). -/
def sortByName (l : List Item) : List Item :=
  l.foldr insertByName []

/-- The ten color/variant alternatives of the slayer-helmet regex. -/
def slayerPrefixes : List String :=
  ["Black", "Green", "Red", "Purple", "Turquoise", "Hydra", "Twisted", "Tztok", "Vampyric", "Tzkal"]

/-- `re.match(r"^(?:...) slayer helmet( \(i\))?$", name)`, returning
`none` on no match and `some g1` on a match, where `g1` is capture
group 1 (`some " (i)"` or `none`).  With `$` and no `re.MULTILINE` the
regex also accepts a single trailing newline. -/
def slayerHelmGroup1 (name : String) : Option (Option String) :=
  if slayerPrefixes.any (fun p => name == p ++ " slayer helmet (i)" || name == p ++ " slayer helmet (i)\n") then
    some (some (" (i)"))
  else if slayerPrefixes.any (fun p => name == p ++ " slayer helmet" || name == p ++ " slayer helmet\n") then
    some none
  else none

/-- `re.match(r"^(a|b|...)$", s) is not None` for literal alternatives:
exact match, or exact match followed by a single trailing newline. -/
def reFullMatch (alts : List String) (s : String) : Bool :=
  alts.any (fun a => s == a || s == a ++ "\n")

/-- The if/elif rule chain in `main`'s resolution loop, returning the
`(base_name, base_version)` pair passed to `handle_base_variant`, or
`none` when no rule matches.  Order: Locked, slayer helmet, minigame
merge, degraded variants. -/
def classify (item : Item) : Option (String × String) :=
  if item.version == "Locked" then some (item.name, "Normal")
  else
    match slayerHelmGroup1 item.name with
    | some g1 => some ("Slayer helmet" ++ g1.getD (""), "")
    | none =>
      if reFullMatch ["Soul Wars", "Emir's Arena"] item.version then
        some (item.name, "Nightmare Zone")
      else if reFullMatch ["25", "50", "75", "100"] item.version then
        some (item.name, "Undamaged")
      else none

/-- `handle_base_variant`: look for the first item with the given base
name and version; if found, emit one alias line; otherwise emit
nothing. -/
def handle_base_variant (all_items : List Item) (variant_item : Item)
    (base_name base_version : String) : List AliasEntry :=
  match all_items.find? (fun x => x.name == base_name && x.version == base_version) with
  | some base =>
    [⟨variant_item.id, base.id, variant_item.name ++ "#" ++ variant_item.version⟩]
  | none => []

/-- The alias lines contributed by a single item of the (sorted) list. -/
def emitFor (all_items : List Item) (item : Item) : List AliasEntry :=
  match classify item with
  | some (bn, bv) => handle_base_variant all_items item bn bv
  | none => []

/-- The full resolution loop of `main`: sort the catalog by name, then
for each item (in sorted order) apply the rule chain and emit at most
one alias line, looking bases up in the sorted list itself. -/
def resolve (items : List Item) : List AliasEntry :=
  (sortByName items).flatMap (emitFor (sortByName items))

/-- Python `'%s' % x` for the id slot: `None` prints as `"None"`, an
int as its decimal representation. -/
def renderId : Option Int → String
  | none => "None"
  | some n => toString n

/-- One emitted line, exactly as `handle_base_variant` appends it:
`'\n    %s: %s, // %s' % (variant_id, base_id, comment)`. -/
def entryLine (e : AliasEntry) : String :=
  "\n    " ++ renderId e.variantId ++ ": " ++ renderId e.baseId ++ ", // " ++ e.comment

/-- The initial value of the global `data` accumulator (file header up
to and including the opening brace). -/
def headerText : String :=
  "/**\n * A map of item ID -> item ID for items that are identical in function, but different in appearance. This includes\n * \"locked\" variants of items, broken/degraded variants of armour and weapons, and cosmetic recolours of equipment.\n * @see https://oldschool.runescape.wiki/w/Trouver_parchment\n */\nexport const equipmentAliases = \x7b"

/-- The final serialized text: header, every emitted line in order, and
the closing `\n}` appended at the end of `main`. -/
def render (es : List AliasEntry) : String :=
  headerText ++ String.join (es.map entryLine) ++ "\n\x7d"

/-- End-to-end: what `main` writes to the output file, as a function of
the fetched wiki data. -/
def mainOutput (wiki_data : WikiData) : String :=
  render (resolve (buildItems wiki_data))

/-! ### Concrete catalogs used as witnesses and counterexamples -/

/-- Two Locked/Normal pairs: produces a two-entry output. -/
def c2cat : List Item :=
  [⟨"A", some 1, "Locked"⟩, ⟨"A", some 2, "Normal"⟩,
   ⟨"B", some 3, "Locked"⟩, ⟨"B", some 4, "Normal"⟩]

/-- A Locked variant together with its Normal base. -/
def c3cat : List Item :=
  [⟨"Abyssal whip", some 21371, "Locked"⟩, ⟨"Abyssal whip", some 4151, "Normal"⟩]

/-- A slayer-helmet recolour whose `version` is `"Locked"`, plus the
plain Slayer helmet base. -/
def c4cat : List Item :=
  [⟨"Black slayer helmet", some 1, "Locked"⟩, ⟨"Slayer helmet", some 2, ""⟩]

/-- A slayer-helmet recolour (no Locked version) plus its base. -/
def c4wit : List Item :=
  [⟨"Twisted slayer helmet", some 100, ""⟩, ⟨"Slayer helmet", some 200, ""⟩]

/-- A degraded ("25") record whose name also matches the slayer-helmet
pattern, together with both candidate bases. -/
def c5cat : List Item :=
  [⟨"Black slayer helmet", some 1, "25"⟩,
   ⟨"Black slayer helmet", some 3, "Undamaged"⟩,
   ⟨"Slayer helmet", some 2, ""⟩]

/-- A degraded record and its Undamaged base. -/
def c5wit : List Item :=
  [⟨"Gadderhammer", some 7, "50"⟩, ⟨"Gadderhammer", some 8, "Undamaged"⟩]

/-- A "Soul Wars" record whose name also matches the slayer-helmet
pattern, together with both candidate bases. -/
def c6cat : List Item :=
  [⟨"Black slayer helmet", some 1, "Soul Wars"⟩,
   ⟨"Black slayer helmet", some 3, "Nightmare Zone"⟩,
   ⟨"Slayer helmet", some 2, ""⟩]

/-- A minigame-variant record and its Nightmare Zone base. -/
def c6wit : List Item :=
  [⟨"Dragon defender", some 10, "Soul Wars"⟩,
   ⟨"Dragon defender", some 11, "Nightmare Zone"⟩]

/-- A degraded record with no Undamaged base in the catalog. -/
def c7cat : List Item :=
  [⟨"Gadderhammer", some 7, "50"⟩]

/-- A base record (matching no rule) next to its Locked variant. -/
def c8cat : List Item :=
  [⟨"Abyssal whip", some 4151, "Normal"⟩, ⟨"Abyssal whip", some 21371, "Locked"⟩]

/-- Wiki data with a record whose `Item ID` printout is empty, plus the
Normal base of the same item: the id-less record is a VARIANT. -/
def c10wiki : WikiData :=
  [("Abyssal whip#Locked", some ⟨[], ["Locked"]⟩),
   ("Abyssal whip#Normal", some ⟨[4151], ["Normal"]⟩)]

/-- Wiki data where the record with the empty `Item ID` printout is the
Normal BASE that the Locked variant resolves to. -/
def c10wiki2 : WikiData :=
  [("Abyssal whip#Locked", some ⟨[21371], ["Locked"]⟩),
   ("Abyssal whip#Normal", some ⟨[], ["Normal"]⟩)]

/-! ### Supporting lemmas -/

theorem insertByName_perm (x : Item) (l : List Item) :
    List.Perm (insertByName x l) (x :: l) := by
  induction l with
  | nil => simp [insertByName]
  | cons y ys ih =>
    rw [insertByName]
    by_cases h : strLe x.name y.name = true
    · simp [h]
    · rw [if_neg h]
      exact (ih.cons y).trans (List.Perm.swap x y ys)

theorem sortByName_perm (l : List Item) : List.Perm (sortByName l) l := by
  induction l with
  | nil => simp [sortByName]
  | cons x xs ih =>
    have : sortByName (x :: xs) = insertByName x (sortByName xs) := rfl
    rw [this]
    exact (insertByName_perm x (sortByName xs)).trans (ih.cons x)

theorem charsLe_refl (cs : List Char) : charsLe cs cs = true := by
  induction cs with
  | nil => rfl
  | cons c cs ih => simp [charsLe, ih]

theorem strLe_refl (s : String) : strLe s s = true :=
  charsLe_refl s.data

/-- Stability of the insertion step: for a predicate that only selects
items of one fixed name, filtering commutes with insertion. -/
theorem filter_insertByName (p : Item → Bool) (n : String)
    (hn : ∀ z, p z = true → z.name = n) (x : Item) (l : List Item) :
    (insertByName x l).filter p = if p x then x :: l.filter p else l.filter p := by
  induction l with
  | nil =>
    rw [insertByName]
    by_cases hx : p x = true <;> simp [List.filter, hx]
  | cons y ys ih =>
    rw [insertByName]
    by_cases h : strLe x.name y.name = true
    · rw [if_pos h]
      by_cases hx : p x = true <;> simp [List.filter_cons, hx]
    · rw [if_neg (by simpa using h)]
      by_cases hx : p x = true
      · have hy : p y = false := by
          by_contra hy
          have hy' : p y = true := by simpa using hy
          have : x.name = y.name := (hn x hx).trans (hn y hy').symm
          rw [this] at h
          exact h (strLe_refl y.name)
        simp [List.filter_cons, hy, ih, hx]
      · have hx' : p x = false := by simpa using hx
        by_cases hy : p y = true <;> simp [List.filter_cons, hy, ih, hx']

/-- Stability of `sortByName`: filtering by a single-name predicate is
unaffected by the sort, i.e. equally-named items keep their original
relative order. -/
theorem filter_sortByName (p : Item → Bool) (n : String)
    (hn : ∀ z, p z = true → z.name = n) (l : List Item) :
    (sortByName l).filter p = l.filter p := by
  induction l with
  | nil => rfl
  | cons x xs ih =>
    have hs : sortByName (x :: xs) = insertByName x (sortByName xs) := rfl
    rw [hs, filter_insertByName p n hn]
    by_cases hx : p x = true <;> simp [List.filter_cons, hx, ih]

theorem find?_eq_head?_filter (p : α → Bool) (l : List α) :
    l.find? p = (l.filter p).head? := by
  induction l with
  | nil => rfl
  | cons x xs ih =>
    cases hx : p x with
    | true => rw [List.find?_cons_of_pos _ hx, List.filter_cons_of_pos hx, List.head?_cons]
    | false =>
      rw [List.find?_cons_of_neg _ (by simp [hx]), List.filter_cons_of_neg (by simp [hx]), ih]

/-- The base lookup over the sorted catalog equals the lookup over the
catalog in fetch order, for any predicate fixing the name. -/
theorem find?_sortByName (p : Item → Bool) (n : String)
    (hn : ∀ z, p z = true → z.name = n) (l : List Item) :
    (sortByName l).find? p = l.find? p := by
  rw [find?_eq_head?_filter, find?_eq_head?_filter, filter_sortByName p n hn]

theorem find?_eq_of_unique (p : α → Bool) (l : List α) (b : α)
    (hb : b ∈ l) (hpb : p b = true) (huniq : ∀ x ∈ l, p x = true → x = b) :
    l.find? p = some b := by
  have hsome : (l.find? p).isSome = true := List.find?_isSome.2 ⟨b, hb, hpb⟩
  obtain ⟨y, hy⟩ := Option.isSome_iff_exists.1 hsome
  have : y = b := huniq y (List.mem_of_find?_eq_some hy) (List.find?_some hy)
  rw [hy, this]

theorem foldl_strAppend (l : List String) (x y : String) :
    l.foldl (fun r s => r ++ s) (x ++ y) = x ++ l.foldl (fun r s => r ++ s) y := by
  induction l generalizing y with
  | nil => rfl
  | cons a as ih =>
    show as.foldl (fun r s => r ++ s) (x ++ y ++ a) = _
    rw [String.append_assoc, ih]
    rfl

theorem strJoin_cons (s : String) (l : List String) :
    String.join (s :: l) = s ++ String.join l := by
  show l.foldl (fun r t => r ++ t) ("" ++ s) = s ++ l.foldl (fun r t => r ++ t) ""
  have h1 : ("" ++ s : String) = s := rfl
  have h2 : (s ++ "" : String) = s := by
    apply String.ext
    rw [String.data_append]
    simp
  rw [h1, ← h2, foldl_strAppend]
  rw [h2]

theorem strJoin_append (l1 l2 : List String) :
    String.join (l1 ++ l2) = String.join l1 ++ String.join l2 := by
  induction l1 with
  | nil => rfl
  | cons a as ih =>
    rw [List.cons_append, strJoin_cons, strJoin_cons, ih, String.append_assoc]

theorem emitFor_eq (all_items : List Item) (item : Item) :
    emitFor all_items item =
      match classify item with
      | some (bn, bv) => handle_base_variant all_items item bn bv
      | none => [] := rfl

theorem handle_base_variant_eq (all_items : List Item) (variant_item : Item)
    (base_name base_version : String) :
    handle_base_variant all_items variant_item base_name base_version =
      match all_items.find? (fun x => x.name == base_name && x.version == base_version) with
      | some base =>
        [⟨variant_item.id, base.id, variant_item.name ++ "#" ++ variant_item.version⟩]
      | none => [] := rfl

theorem emitFor_some (all_items : List Item) (item : Item) (bn bv : String)
    (h : classify item = some (bn, bv)) :
    emitFor all_items item = handle_base_variant all_items item bn bv := by
  rw [emitFor_eq, h]

theorem emitFor_none (all_items : List Item) (item : Item)
    (h : classify item = none) : emitFor all_items item = [] := by
  rw [emitFor_eq, h]

theorem handle_base_variant_some (all_items : List Item) (v : Item)
    (bn bv : String) (base : Item)
    (h : all_items.find? (fun x => x.name == bn && x.version == bv) = some base) :
    handle_base_variant all_items v bn bv = [⟨v.id, base.id, v.name ++ "#" ++ v.version⟩] := by
  rw [handle_base_variant_eq, h]

theorem handle_base_variant_none (all_items : List Item) (v : Item)
    (bn bv : String)
    (h : all_items.find? (fun x => x.name == bn && x.version == bv) = none) :
    handle_base_variant all_items v bn bv = [] := by
  rw [handle_base_variant_eq, h]

theorem emitFor_variantId (all_items : List Item) (x : Item) (e : AliasEntry)
    (he : e ∈ emitFor all_items x) : e.variantId = x.id := by
  rcases hc : classify x with _ | ⟨bn, bv⟩
  · rw [emitFor_none all_items x hc] at he
    simp at he
  · rw [emitFor_some all_items x bn bv hc] at he
    rcases hf : all_items.find? (fun y => y.name == bn && y.version == bv) with _ | b
    · rw [handle_base_variant_none all_items x bn bv hf] at he
      simp at he
    · rw [handle_base_variant_some all_items x bn bv b hf] at he
      simp at he
      rw [he]

/-- If an item classifies to `(bn, bv)` and some catalog record has that
name and version, then the resolution output contains the corresponding
alias entry (whose base is one such record). -/
theorem resolve_mem (items : List Item) (v : Item) (bn bv : String)
    (hv : v ∈ items) (hc : classify v = some (bn, bv))
    (hb : ∃ b ∈ items, b.name = bn ∧ b.version = bv) :
    ∃ b ∈ items, b.name = bn ∧ b.version = bv ∧
      (⟨v.id, b.id, v.name ++ "#" ++ v.version⟩ : AliasEntry) ∈ resolve items := by
  have hperm := sortByName_perm items
  obtain ⟨b0, hb0m, hb0n, hb0v⟩ := hb
  have hsome : ((sortByName items).find? (fun x => x.name == bn && x.version == bv)).isSome = true := by
    refine List.find?_isSome.2 ⟨b0, hperm.mem_iff.2 hb0m, ?_⟩
    simp [hb0n, hb0v]
  obtain ⟨b, hfind⟩ := Option.isSome_iff_exists.1 hsome
  have hbmem : b ∈ items := hperm.mem_iff.1 (List.mem_of_find?_eq_some hfind)
  have hbp := List.find?_some hfind
  simp only [Bool.and_eq_true, beq_iff_eq] at hbp
  refine ⟨b, hbmem, hbp.1, hbp.2, ?_⟩
  refine List.mem_flatMap.2 ⟨v, hperm.mem_iff.2 hv, ?_⟩
  rw [emitFor_some _ _ _ _ hc, handle_base_variant_some _ _ _ _ _ hfind]
  simp

theorem flatMap_filter_ne (f : Item → List AliasEntry) (v : Item)
    (hf : f v = []) (l : List Item) :
    l.flatMap f = (l.filter (fun x => decide (¬ x = v))).flatMap f := by
  induction l with
  | nil => rfl
  | cons x xs ih =>
    by_cases hx : x = v
    · subst hx
      simp [List.filter_cons, hf, ih]
    · simp [List.filter_cons, hx, ih]

theorem sum_map_ite_eq_count (v : Item) (l : List Item) :
    (l.map (fun x => if x = v then 1 else 0)).sum = l.count v := by
  induction l with
  | nil => rfl
  | cons x xs ih =>
    rw [List.map_cons, List.sum_cons, ih, List.count_cons]
    by_cases hx : x = v <;> simp [hx, Nat.add_comm]

theorem classify_eq (item : Item) :
    classify item =
      (if item.version == "Locked" then some (item.name, "Normal")
      else
        match slayerHelmGroup1 item.name with
        | some g1 => some ("Slayer helmet" ++ g1.getD (""), "")
        | none =>
          if reFullMatch ["Soul Wars", "Emir's Arena"] item.version then
            some (item.name, "Nightmare Zone")
          else if reFullMatch ["25", "50", "75", "100"] item.version then
            some (item.name, "Undamaged")
          else none) := rfl

theorem classify_locked (item : Item) (h : item.version = "Locked") :
    classify item = some (item.name, "Normal") := by
  rw [classify_eq, h]
  simp

theorem classify_slayer (item : Item) (g1 : Option String)
    (hver : item.version ≠ "Locked")
    (hg : slayerHelmGroup1 item.name = some g1) :
    classify item = some ("Slayer helmet" ++ g1.getD (""), "") := by
  rw [classify_eq, if_neg (by simp [hver]), hg]

theorem classify_minigame (item : Item)
    (hver : (item.version == "Locked") = false)
    (hns : slayerHelmGroup1 item.name = none)
    (hm : reFullMatch ["Soul Wars", "Emir's Arena"] item.version = true) :
    classify item = some (item.name, "Nightmare Zone") := by
  rw [classify_eq, if_neg (by simp [hver]), hns, hm]
  simp

theorem classify_degraded (item : Item)
    (hver : (item.version == "Locked") = false)
    (hns : slayerHelmGroup1 item.name = none)
    (hm : reFullMatch ["Soul Wars", "Emir's Arena"] item.version = false)
    (hd : reFullMatch ["25", "50", "75", "100"] item.version = true) :
    classify item = some (item.name, "Undamaged") := by
  rw [classify_eq, if_neg (by simp [hver]), hns, hm, hd]
  simp

/-- For each of the ten prefixes and either suffix, the slayer-helmet
regex matches and its capture group extends `"Slayer helmet"` by the
suffix. -/
theorem slayerHelmGroup1_of_prefix (p sfx : String)
    (hp : p ∈ slayerPrefixes) (hsfx : sfx = "" ∨ sfx = " (i)") :
    ∃ g : Option String,
      slayerHelmGroup1 (p ++ " slayer helmet" ++ sfx) = some g ∧ g.getD ("") = sfx := by
  rcases hsfx with rfl | rfl
  · exact ⟨none, by fin_cases hp <;> decide, rfl⟩
  · exact ⟨some (" (i)"), by fin_cases hp <;> decide, rfl⟩

/-! ### Claim theorems -/

/-- C1 counterexample: a response that carries a result set together
with a continuation offset EQUAL to the current offset does not stop
the fetch loop — the iteration continues at the same offset, and the
loop does not finish within any number of iterations (shown here for
100) when the server keeps answering that way.  The claim says such a
response terminates the loop. -/
theorem claim_C1_counterexample :
    fetchStep 0 [] ⟨some [], some 0⟩ = FetchOutcome.more 0 [] ∧
    getEquipmentData 100 0 [] (fun _ => ⟨some [], some 0⟩) 0 = none := by
  constructor
  · rfl
  · rfl

/-- C1 (amended): an iteration of the catalog fetch loop stops the loop
iff the response contains no result set, or the server-provided
continuation offset is absent, or the continuation offset is STRICTLY
LESS than the current offset.  (A continuation offset equal to the
current offset re-enters the loop at the same offset, so the loop is
not guaranteed to terminate on a misbehaving data source.) -/
theorem claim_C1 (offset : Int) (equipment : WikiData) (resp : ApiResponse) :
    (∃ e, fetchStep offset equipment resp = FetchOutcome.done e) ↔
      (resp.results = none ∨ resp.continueOffset = none ∨
        ∃ c, resp.continueOffset = some c ∧ c < offset) := by
  obtain ⟨rs, co⟩ := resp
  cases rs with
  | none => simp [fetchStep]
  | some rs =>
    cases co with
    | none => simp [fetchStep]
    | some c =>
      by_cases h : c < offset
      · simp [fetchStep, h]
      · simp [fetchStep, h]

/-- C2 counterexample: on a catalog producing two alias entries, the
serialized output places the trailing separator `,` after the FINAL
entry as well (`...3: 4, // B#Locked` right before the closing brace),
while the claim says the final entry is not followed by the
separator. -/
theorem claim_C2_counterexample :
    resolve c2cat =
      [⟨some 1, some 2, "A#Locked"⟩, ⟨some 3, some 4, "B#Locked"⟩] ∧
    render (resolve c2cat) =
      headerText ++ "\n    1: 2, // A#Locked\n    3: 4, // B#Locked\n\x7d" := by
  have h1 : resolve c2cat =
      [⟨some 1, some 2, "A#Locked"⟩, ⟨some 3, some 4, "B#Locked"⟩] := by decide
  refine ⟨h1, ?_⟩
  rw [h1, render, String.append_assoc]
  exact congrArg (fun s => headerText ++ s) (by decide)

/-- C2 (amended): in the serialized output text, EVERY alias entry —
the final one included — is followed by the trailing separator and a
same-line comment giving the variant's name#version: each entry's line
occurs in the output as `\n    variantId: baseId, // comment`. -/
theorem claim_C2 (es : List AliasEntry) (e : AliasEntry) (h : e ∈ es) :
    ∃ pre post : String,
      render es = pre ++ entryLine e ++ post ∧
      entryLine e =
        "\n    " ++ renderId e.variantId ++ ": " ++ renderId e.baseId ++ ", // " ++ e.comment := by
  obtain ⟨l1, l2, rfl⟩ := List.append_of_mem h
  refine ⟨headerText ++ String.join (l1.map entryLine),
          String.join (l2.map entryLine) ++ "\n\x7d", ?_, rfl⟩
  rw [render, List.map_append, List.map_cons, strJoin_append, strJoin_cons]
  simp only [String.append_assoc]

/-- Witness for C2 on a concrete single-entry output. -/
theorem claim_C2_witness :
    ∃ pre post : String,
      render [⟨some 21371, some 4151, "Abyssal whip#Locked"⟩] =
        pre ++ entryLine ⟨some 21371, some 4151, "Abyssal whip#Locked"⟩ ++ post ∧
      entryLine ⟨some 21371, some 4151, "Abyssal whip#Locked"⟩ =
        "\n    " ++ renderId (some 21371) ++ ": " ++ renderId (some 4151) ++ ", // " ++
          "Abyssal whip#Locked" :=
  claim_C2 [⟨some 21371, some 4151, "Abyssal whip#Locked"⟩]
    ⟨some 21371, some 4151, "Abyssal whip#Locked"⟩ (by decide)

/-- C3: for a catalog record `v` with version `"Locked"` whose
same-name `"Normal"` base `b` exists (uniqueness of the base record and
of `v`'s identifier as per the catalog invariants), the output contains
exactly one alias entry mapping `v`'s identifier to `b`'s
identifier. -/
theorem claim_C3 (items : List Item) (v b : Item)
    (hv : v ∈ items) (hlock : v.version = "Locked")
    (hcount : items.count v = 1)
    (hid : ∀ x ∈ items, x.id = v.id → x = v)
    (hb : b ∈ items) (hbn : b.name = v.name) (hbv : b.version = "Normal")
    (hbu : ∀ x ∈ items, x.name = v.name → x.version = "Normal" → x = b) :
    (resolve items).countP
      (fun e => decide (e.variantId = v.id ∧ e.baseId = b.id)) = 1 := by
  have hperm := sortByName_perm items
  have hc : classify v = some (v.name, "Normal") := classify_locked v hlock
  have hfind : (sortByName items).find?
      (fun x => x.name == v.name && x.version == "Normal") = some b := by
    apply find?_eq_of_unique
    · exact hperm.mem_iff.2 hb
    · simp [hbn, hbv]
    · intro x hx hpx
      simp only [Bool.and_eq_true, beq_iff_eq] at hpx
      exact hbu x (hperm.mem_iff.1 hx) hpx.1 hpx.2
  have hemitv : emitFor (sortByName items) v =
      [⟨v.id, b.id, v.name ++ "#" ++ v.version⟩] := by
    rw [emitFor_some _ _ _ _ hc, handle_base_variant_some _ _ _ _ _ hfind]
  have hpointwise : ∀ x ∈ sortByName items,
      (emitFor (sortByName items) x).countP
        (fun e => decide (e.variantId = v.id ∧ e.baseId = b.id)) =
        if x = v then 1 else 0 := by
    intro x hx
    by_cases hxv : x = v
    · subst hxv
      rw [hemitv, if_pos rfl]
      simp
    · rw [if_neg hxv, List.countP_eq_zero]
      intro e he
      have hvid : e.variantId = x.id := emitFor_variantId _ x e he
      simp only [decide_eq_true_eq, not_and]
      intro h1 _
      exact hxv (hid x (hperm.mem_iff.1 hx) (by rw [← hvid, h1]))
  have h1 : (resolve items).countP
      (fun e => decide (e.variantId = v.id ∧ e.baseId = b.id)) =
      ((sortByName items).map fun x =>
        (emitFor (sortByName items) x).countP
          (fun e => decide (e.variantId = v.id ∧ e.baseId = b.id))).sum := by
    rw [show resolve items =
        (sortByName items).flatMap (emitFor (sortByName items)) from rfl,
      List.countP_flatMap]
    rfl
  rw [h1, List.map_congr_left hpointwise, sum_map_ite_eq_count,
    hperm.count_eq, hcount]

/-- Witness for C3 on a concrete Locked/Normal pair. -/
theorem claim_C3_witness :
    (resolve c3cat).countP
      (fun e => decide (e.variantId = some 21371 ∧ e.baseId = some 4151)) = 1 :=
  claim_C3 c3cat ⟨"Abyssal whip", some 21371, "Locked"⟩
    ⟨"Abyssal whip", some 4151, "Normal"⟩
    (by decide) rfl (by decide) (by decide) (by decide) rfl rfl (by decide)

/-- C4 counterexample: the record `"Black slayer helmet"` with version
`"Locked"` matches the slayer-helmet name pattern and its base
`("Slayer helmet", "")` is in the catalog, yet the output contains no
alias entry at all: the Locked rule takes precedence and its own base
`("Black slayer helmet", "Normal")` is absent. -/
theorem claim_C4_counterexample :
    slayerHelmGroup1 "Black slayer helmet" = some none ∧
    (⟨"Slayer helmet", some 2, ""⟩ : Item) ∈ c4cat ∧
    resolve c4cat = [] := by
  decide

/-- C4 (amended): for a record whose name is one of the ten prefixes
followed by `" slayer helmet"` (optionally suffixed `" (i)"`), PROVIDED
its version is not `"Locked"` (the Locked rule is checked first), an
alias entry mapping it to a record named `"Slayer helmet"` (suffix
preserved) with empty version appears in the output whenever such a
base record exists. -/
theorem claim_C4 (items : List Item) (v : Item) (p sfx : String)
    (hv : v ∈ items) (hp : p ∈ slayerPrefixes) (hsfx : sfx = "" ∨ sfx = " (i)")
    (hname : v.name = p ++ " slayer helmet" ++ sfx)
    (hver : v.version ≠ "Locked")
    (hbase : ∃ b ∈ items, b.name = "Slayer helmet" ++ sfx ∧ b.version = "") :
    ∃ b ∈ items, b.name = "Slayer helmet" ++ sfx ∧ b.version = "" ∧
      (⟨v.id, b.id, v.name ++ "#" ++ v.version⟩ : AliasEntry) ∈ resolve items := by
  obtain ⟨g, hg, hgd⟩ := slayerHelmGroup1_of_prefix p sfx hp hsfx
  have hc : classify v = some ("Slayer helmet" ++ sfx, "") := by
    rw [← hgd]
    apply classify_slayer v g hver
    rw [hname, hg]
  exact resolve_mem items v _ _ hv hc hbase

/-- Witness for C4 on the spec's own example catalog. -/
theorem claim_C4_witness :
    ∃ b ∈ c4wit, b.name = "Slayer helmet" ++ "" ∧ b.version = "" ∧
      (⟨some 100, b.id, "Twisted slayer helmet" ++ "#" ++ ""⟩ : AliasEntry) ∈ resolve c4wit :=
  claim_C4 c4wit ⟨"Twisted slayer helmet", some 100, ""⟩ "Twisted" ""
    (by decide) (by decide) (Or.inl rfl) (by decide) (by decide)
    ⟨⟨"Slayer helmet", some 200, ""⟩, by decide, by decide, rfl⟩

/-- C5 counterexample: the record `"Black slayer helmet"` with version
`"25"` has its same-name `"Undamaged"` base (id 3) in the catalog, yet
no output entry maps to id 3: the slayer-helmet name rule preempts the
degradation rule and the record is aliased to `"Slayer helmet"` (id 2)
instead. -/
theorem claim_C5_counterexample :
    (⟨"Black slayer helmet", some 1, "25"⟩ : Item) ∈ c5cat ∧
    (⟨"Black slayer helmet", some 3, "Undamaged"⟩ : Item) ∈ c5cat ∧
    resolve c5cat =
      [⟨some 1, some 2, "Black slayer helmet#25"⟩,
       ⟨some 3, some 2, "Black slayer helmet#Undamaged"⟩] ∧
    (resolve c5cat).all (fun e => e.baseId != some 3) = true := by
  decide

/-- C5 (amended): for a record whose version is exactly one of the
literal tokens `"25"`, `"50"`, `"75"`, `"100"`, PROVIDED its name does
not match the slayer-helmet pattern (that rule is checked first), an
alias entry mapping it to the same-name `"Undamaged"` record appears in
the output whenever such a base record exists. -/
theorem claim_C5 (items : List Item) (v : Item)
    (hv : v ∈ items)
    (hver : v.version = "25" ∨ v.version = "50" ∨ v.version = "75" ∨ v.version = "100")
    (hns : slayerHelmGroup1 v.name = none)
    (hbase : ∃ b ∈ items, b.name = v.name ∧ b.version = "Undamaged") :
    ∃ b ∈ items, b.name = v.name ∧ b.version = "Undamaged" ∧
      (⟨v.id, b.id, v.name ++ "#" ++ v.version⟩ : AliasEntry) ∈ resolve items := by
  have hc : classify v = some (v.name, "Undamaged") := by
    apply classify_degraded v _ hns
    · rcases hver with h | h | h | h <;> rw [h] <;> decide
    · rcases hver with h | h | h | h <;> rw [h] <;> decide
    · rcases hver with h | h | h | h <;> rw [h] <;> decide
  exact resolve_mem items v _ _ hv hc hbase

/-- Witness for C5 on a concrete degraded item. -/
theorem claim_C5_witness :
    ∃ b ∈ c5wit, b.name = "Gadderhammer" ∧ b.version = "Undamaged" ∧
      (⟨some 7, b.id, "Gadderhammer" ++ "#" ++ "50"⟩ : AliasEntry) ∈ resolve c5wit :=
  claim_C5 c5wit ⟨"Gadderhammer", some 7, "50"⟩ (by decide)
    (Or.inr (Or.inl rfl)) (by decide)
    ⟨⟨"Gadderhammer", some 8, "Undamaged"⟩, by decide, rfl, rfl⟩

/-- C6 counterexample: the record `"Black slayer helmet"` with version
`"Soul Wars"` has its same-name `"Nightmare Zone"` base (id 3) in the
catalog, yet no output entry maps to id 3: the slayer-helmet name rule
preempts the minigame-merge rule and the record is aliased to
`"Slayer helmet"` (id 2) instead. -/
theorem claim_C6_counterexample :
    (⟨"Black slayer helmet", some 1, "Soul Wars"⟩ : Item) ∈ c6cat ∧
    (⟨"Black slayer helmet", some 3, "Nightmare Zone"⟩ : Item) ∈ c6cat ∧
    resolve c6cat =
      [⟨some 1, some 2, "Black slayer helmet#Soul Wars"⟩,
       ⟨some 3, some 2, "Black slayer helmet#Nightmare Zone"⟩] ∧
    (resolve c6cat).all (fun e => e.baseId != some 3) = true := by
  decide

/-- C6 (amended): for a record whose version is exactly `"Soul Wars"`
or `"Emir's Arena"`, PROVIDED its name does not match the slayer-helmet
pattern (that rule is checked first), an alias entry mapping it to the
same-name `"Nightmare Zone"` record appears in the output whenever such
a base record exists. -/
theorem claim_C6 (items : List Item) (v : Item)
    (hv : v ∈ items)
    (hver : v.version = "Soul Wars" ∨ v.version = "Emir's Arena")
    (hns : slayerHelmGroup1 v.name = none)
    (hbase : ∃ b ∈ items, b.name = v.name ∧ b.version = "Nightmare Zone") :
    ∃ b ∈ items, b.name = v.name ∧ b.version = "Nightmare Zone" ∧
      (⟨v.id, b.id, v.name ++ "#" ++ v.version⟩ : AliasEntry) ∈ resolve items := by
  have hc : classify v = some (v.name, "Nightmare Zone") := by
    apply classify_minigame v _ hns
    · rcases hver with h | h <;> rw [h] <;> decide
    · rcases hver with h | h <;> rw [h] <;> decide
  exact resolve_mem items v _ _ hv hc hbase

/-- Witness for C6 on a concrete minigame-variant item. -/
theorem claim_C6_witness :
    ∃ b ∈ c6wit, b.name = "Dragon defender" ∧ b.version = "Nightmare Zone" ∧
      (⟨some 10, b.id, "Dragon defender" ++ "#" ++ "Soul Wars"⟩ : AliasEntry) ∈ resolve c6wit :=
  claim_C6 c6wit ⟨"Dragon defender", some 10, "Soul Wars"⟩ (by decide)
    (Or.inl rfl) (by decide)
    ⟨⟨"Dragon defender", some 11, "Nightmare Zone"⟩, by decide, rfl, rfl⟩

/-- C7: a record that matches a classification rule but whose
designated base record (exact name and version) is absent from the
catalog contributes no alias entry, no error is raised (resolution is
total), and the output is exactly the contribution of the remaining
records. -/
theorem claim_C7 (items : List Item) (v : Item) (bn bv : String)
    (_hv : v ∈ items) (hc : classify v = some (bn, bv))
    (hnob : ∀ b ∈ items, ¬(b.name = bn ∧ b.version = bv)) :
    emitFor (sortByName items) v = [] ∧
    resolve items =
      ((sortByName items).filter (fun x => decide (¬ x = v))).flatMap
        (emitFor (sortByName items)) := by
  have hperm := sortByName_perm items
  have hfind : (sortByName items).find?
      (fun x => x.name == bn && x.version == bv) = none := by
    rw [List.find?_eq_none]
    intro x hx hpx
    simp only [Bool.and_eq_true, beq_iff_eq] at hpx
    exact hnob x (hperm.mem_iff.1 hx) hpx
  have hemit : emitFor (sortByName items) v = [] := by
    rw [emitFor_some _ _ _ _ hc, handle_base_variant_none _ _ _ _ hfind]
  exact ⟨hemit, flatMap_filter_ne _ v hemit (sortByName items)⟩

/-- Witness for C7 on a degraded item with no Undamaged base. -/
theorem claim_C7_witness :
    emitFor (sortByName c7cat) ⟨"Gadderhammer", some 7, "50"⟩ = [] ∧
    resolve c7cat =
      ((sortByName c7cat).filter
        (fun x => decide (¬ x = (⟨"Gadderhammer", some 7, "50"⟩ : Item)))).flatMap
        (emitFor (sortByName c7cat)) :=
  claim_C7 c7cat ⟨"Gadderhammer", some 7, "50"⟩ "Gadderhammer" "Undamaged"
    (by decide) (by decide) (by decide)

/-- C8: a catalog record matching none of the four classification rules
contributes nothing: no alias entry in the output carries its
identifier as variant identifier (identifiers are not reused across
records, per the catalog invariant). -/
theorem claim_C8 (items : List Item) (v : Item)
    (_hv : v ∈ items) (hc : classify v = none)
    (hid : ∀ x ∈ items, x.id = v.id → x = v) :
    ∀ e ∈ resolve items, e.variantId ≠ v.id := by
  intro e he hev
  have hperm := sortByName_perm items
  obtain ⟨x, hx, hex⟩ := List.mem_flatMap.1 he
  have hxid : e.variantId = x.id := emitFor_variantId _ x e hex
  have hxv : x = v := hid x (hperm.mem_iff.1 hx) (by rw [← hxid, hev])
  rw [hxv, emitFor_none _ _ hc] at hex
  simp at hex

/-- Witness for C8: the Normal whip matches no rule, and the emitted
entry (for its Locked variant) does not carry the whip's id 4151 as
variant identifier. -/
theorem claim_C8_witness :
    (⟨some 21371, some 4151, "Abyssal whip#Locked"⟩ : AliasEntry).variantId ≠
      (⟨"Abyssal whip", some 4151, "Normal"⟩ : Item).id :=
  claim_C8 c8cat ⟨"Abyssal whip", some 4151, "Normal"⟩ (by decide) (by decide)
    (by decide) ⟨some 21371, some 4151, "Abyssal whip#Locked"⟩ (by decide)

/-- C9: base lookup scans the sorted catalog for the first record with
the exact (name, version) key; because the by-name sort is stable and
all candidates share the looked-up name, this is the first such record
in fetch order.  Hence each item's contribution equals lookup by
`find?` over the ORIGINAL catalog: when several records share the
(name, version) pair, every alias entry for that pair uses the earliest
such record's identifier. -/
theorem claim_C9 (items : List Item) (v : Item) :
    emitFor (sortByName items) v =
      match classify v with
      | some (bn, bv) =>
        match items.find? (fun x => x.name == bn && x.version == bv) with
        | some b => [⟨v.id, b.id, v.name ++ "#" ++ v.version⟩]
        | none => []
      | none => [] := by
  rcases hc : classify v with _ | ⟨bn, bv⟩
  · rw [emitFor_none _ _ hc]
  · rw [emitFor_some _ _ _ _ hc]
    show handle_base_variant (sortByName items) v bn bv =
      match items.find? (fun x => x.name == bn && x.version == bv) with
      | some b => [⟨v.id, b.id, v.name ++ "#" ++ v.version⟩]
      | none => []
    have hfind : (sortByName items).find? (fun x => x.name == bn && x.version == bv) =
        items.find? (fun x => x.name == bn && x.version == bv) := by
      apply find?_sortByName _ bn
      intro z hz
      simp only [Bool.and_eq_true, beq_iff_eq] at hz
      exact hz.1
    rcases hf : items.find? (fun x => x.name == bn && x.version == bv) with _ | b
    · rw [handle_base_variant_none _ _ _ _ (hfind.trans hf), hf]
    · rw [handle_base_variant_some _ _ _ _ _ (hfind.trans hf), hf]

/-- C10: a fetched record whose `Item ID` printout is the empty array
is not skipped: an item is UNCONDITIONALLY constructed with an absent
(`none`) identifier, which renders as the literal text `"None"`.  The
resolver never checks that an identifier is present before emitting:
(variant role) if the item classifies as a variant and a base with the
designated name and version exists, an alias entry with the absent
identifier in the variant slot is emitted; (base role) if the item is
the record base lookup selects for some classified variant `w`, an
alias entry with the absent identifier in the base slot is emitted. -/
theorem claim_C10 (wiki : WikiData) (k : String) (po : Printouts)
    (hmem : (k, some po) ∈ wiki) (hempty : po.itemID = []) :
    (⟨nameFromKey k, none, (getPrintoutValue po.versionAnchor).getD ("")⟩ : Item) ∈
      buildItems wiki ∧
    renderId none = "None" ∧
    (∀ bn bv : String,
      classify ⟨nameFromKey k, none, (getPrintoutValue po.versionAnchor).getD ("")⟩ =
        some (bn, bv) →
      (∃ b0 ∈ buildItems wiki, b0.name = bn ∧ b0.version = bv) →
      ∃ b ∈ buildItems wiki, b.name = bn ∧ b.version = bv ∧
        (⟨none, b.id,
          nameFromKey k ++ "#" ++ (getPrintoutValue po.versionAnchor).getD ("")⟩ : AliasEntry) ∈
          resolve (buildItems wiki)) ∧
    (∀ (w : Item) (bn bv : String),
      w ∈ buildItems wiki → classify w = some (bn, bv) →
      (sortByName (buildItems wiki)).find? (fun x => x.name == bn && x.version == bv) =
        some ⟨nameFromKey k, none, (getPrintoutValue po.versionAnchor).getD ("")⟩ →
      (⟨w.id, none, w.name ++ "#" ++ w.version⟩ : AliasEntry) ∈ resolve (buildItems wiki)) := by
  have hmem2 : (⟨nameFromKey k, none,
      (getPrintoutValue po.versionAnchor).getD ("")⟩ : Item) ∈ buildItems wiki := by
    apply List.mem_filterMap.2
    refine ⟨(k, some po), hmem, ?_⟩
    simp [hempty, getPrintoutValue]
  refine ⟨hmem2, rfl, ?_, ?_⟩
  · intro bn bv hc hbase
    exact resolve_mem (buildItems wiki) _ bn bv hmem2 hc hbase
  · intro w bn bv hw hcw hfindw
    refine List.mem_flatMap.2 ⟨w, (sortByName_perm (buildItems wiki)).mem_iff.2 hw, ?_⟩
    rw [emitFor_some _ _ _ _ hcw, handle_base_variant_some _ _ _ _ _ hfindw]
    simp

/-- Witness for C10: at `c10wiki` the id-less Locked record is built and
emitted as a VARIANT (`None` in the variant slot); at `c10wiki2` the
id-less Normal record is built and selected as the BASE of the Locked
variant (`None` in the base slot). -/
theorem claim_C10_witness :
    ((⟨"Abyssal whip", none, "Locked"⟩ : Item) ∈ buildItems c10wiki ∧
      ∃ b ∈ buildItems c10wiki, b.name = "Abyssal whip" ∧ b.version = "Normal" ∧
        (⟨none, b.id, "Abyssal whip#Locked"⟩ : AliasEntry) ∈ resolve (buildItems c10wiki)) ∧
    ((⟨"Abyssal whip", none, "Normal"⟩ : Item) ∈ buildItems c10wiki2 ∧
      (⟨some 21371, none, "Abyssal whip#Locked"⟩ : AliasEntry) ∈ resolve (buildItems c10wiki2)) ∧
    renderId none = "None" := by
  refine ⟨?_, ?_, rfl⟩
  · obtain ⟨h1, -, hvar, -⟩ :=
      claim_C10 c10wiki ("Abyssal whip#Locked") ⟨[], ["Locked"]⟩ (by decide) rfl
    exact ⟨h1, hvar ("Abyssal whip") ("Normal") (by decide)
      ⟨⟨"Abyssal whip", some 4151, "Normal"⟩, by decide, rfl, rfl⟩⟩
  · obtain ⟨h1, -, -, hbase⟩ :=
      claim_C10 c10wiki2 ("Abyssal whip#Normal") ⟨[], ["Normal"]⟩ (by decide) rfl
    exact ⟨h1, hbase ⟨"Abyssal whip", some 21371, "Locked"⟩ ("Abyssal whip") ("Normal")
      (by decide) (by decide) (by decide)⟩

end EquipAliases
